import Mathlib

/-!
Shallow embedding of `Marlin/src/HAL/LPC1768/upload_extra_script.py`
(the `before_upload` PlatformIO pre-upload hook) and proofs about its
drive-resolution behaviour.

The script enumerates candidate drives on the current OS and selects one
by volume-label match or by presence of a marker file, then mutates the
build environment (`UPLOAD_PORT`, and on Linux `UPLOAD_FLAGS`).
Filesystem/OS interaction is modelled as explicit input data:

* Windows: a logical-drives bitmask plus, per drive letter, the result of
  the `vol` and `dir` shell commands (`Except` error = the command raised).
* Linux/macOS: the result of `iterdir()` on the media/volumes root
  (`Except` error = `iterdir` raised), each entry carrying its name, its
  `is_dir()` flag, and the result of listing its own contents.

Python values that the script compares with `==`/`in` are modelled by
`PyVal`, distinguishing `str` from `pathlib` path objects: in Python a
`str` never compares equal to a `Path`, which is significant for the
`target_drive in drives` tests at lines 85 and 115 of the script.
-/

/-- Python value as used by the script: either a `str` or a `pathlib`
path object (kept as its rendered path string, what `str(p)` returns). -/
inductive PyVal where
  | pstr (s : String)
  | ppath (s : String)
deriving DecidableEq, Repr

/-- Python `==` between the values the script compares: `str == str` and
`Path == Path` compare contents; `str == Path` (either direction) returns
`NotImplemented` from both operands and hence evaluates to `False`. -/
def pyEq : PyVal → PyVal → Bool
  | .pstr a, .pstr b => a == b
  | .ppath a, .ppath b => a == b
  | _, _ => false

/-- Python `v in xs` membership test over a list of `PyVal`s. -/
def pyIn (v : PyVal) (xs : List PyVal) : Bool :=
  xs.any fun e => pyEq v e

/-- Python `str(v)`. -/
def pyStr : PyVal → String
  | .pstr s => s
  | .ppath s => s

/-- Python substring test `needle in hay` on strings. -/
def strContains (hay needle : String) : Bool :=
  decide (needle.toList <:+: hay.toList)

/-- Line 12 of the script: the marker filename searched for on candidates. -/
def target_filename : String := "FIRMWARE.CUR"

/-- Line 13 of the script: the expected volume label / directory name. -/
def target_drive : String := "REARM"

/-- One entry of a media/volumes root directory, as observed by the
script: its name, its `is_dir()` flag, and the outcome of listing it
(entries as name/`is_file()` pairs; `Except.error` = `iterdir` raised). -/
structure SubEntry where
  name : String
  isDir : Bool
  listing : Except String (List (String × Bool))
deriving Repr

/-- Windows filesystem state as observed by the script: the
`GetLogicalDrives` bitmask and, per drive letter, the outputs of
`cmd /C vol` and `cmd /C dir` (`Except.error` = `check_output` raised). -/
structure WinState where
  bitmask : Nat
  vol : Char → Except String String
  dirListing : Char → Except String String

/-- Outcome of one OS-specific resolution pass: the three locals
`upload_disk`, `target_drive_found`, `target_file_found` of
`before_upload` (lines 33-35 initialise them). -/
structure ScanResult where
  upload_disk : PyVal
  target_drive_found : Bool
  target_file_found : Bool
deriving DecidableEq, Repr

/-- Initial values from lines 33-35: `upload_disk = 'Disk not found'`,
both found-flags `False`. -/
def initScan : ScanResult := ⟨.pstr "Disk not found", false, false⟩

/-- Line 133 (and 104): `target_file_found or target_drive_found`. -/
def scanFound (r : ScanResult) : Bool :=
  r.target_file_found || r.target_drive_found

/-- Build-environment fields the hook reads or writes: `PIOENV` (read for
diagnostics), `UPLOAD_PORT` and `UPLOAD_FLAGS` (written via
`env.Replace`; `none` = not set). -/
structure EnvState where
  pioenv : String
  upload_port : Option String
  upload_flags : Option String
deriving DecidableEq, Repr

/-- Result of one hook invocation: the final environment and the printed
output lines. -/
structure HookResult where
  env : EnvState
  printed : List String
deriving DecidableEq, Repr

/-- Lines 20-25: the `print_error` diagnostic text, parameterised by the
cause `e` and the `PIOENV` name. -/
def print_error_msg (e pioenv : String) : String :=
  "\nUnable to find destination disk (" ++ e ++ ")\n" ++
  "Please select it in platformio.ini using the upload_port keyword " ++
  "(https://docs.platformio.org/en/latest/projectconf/section_env_upload.html) " ++
  "or copy the firmware (.pio/build/" ++ pioenv ++
  "/firmware.bin) manually to the appropriate disk\n"

/-- Line 54: `final_drive_name = drive + ':'` (also what
`str(PureWindowsPath(final_drive_name))` renders back). -/
def driveName (c : Char) : String := String.mk [c] ++ ":"

/-- Line 48: `string.ascii_uppercase` as a list of drive letters. -/
def asciiUppercase : List Char := "ABCDEFGHIJKLMNOPQRSTUVWXYZ".toList

/-- Lines 48-51: walk the letters while shifting the bitmask, keeping a
letter whenever the low bit is set. -/
def winDrivesGo : Nat → List Char → List Char
  | _, [] => []
  | b, c :: cs =>
    if b % 2 = 1 then c :: winDrivesGo (b / 2) cs
    else winDrivesGo (b / 2) cs

/-- Lines 46-51: the list of assigned drive letters, in `A`..`Z` order. -/
def winDrives (bitmask : Nat) : List Char :=
  winDrivesGo bitmask asciiUppercase

/-- Lines 53-75: the Windows scan loop. Per drive: run `vol`; on error
skip the drive; else a label substring match selects it and breaks; else
run `dir`; on error skip; else a filename substring match selects it and
breaks. (The per-drive `print` of the swallowed error is not modelled.) -/
def winScan (st : WinState) : List Char → ScanResult
  | [] => initScan
  | c :: rest =>
    match st.vol c with
    | .error _ => winScan st rest
    | .ok volume_info =>
      if strContains volume_info target_drive then
        ⟨.ppath (driveName c), true, false⟩
      else
        match st.dirListing c with
        | .error _ => winScan st rest
        | .ok dir_info =>
          if strContains dir_info target_filename then
            ⟨.ppath (driveName c), false, true⟩
          else winScan st rest

/-- Lines 89-99 and 118-128: the Linux/macOS file-search loop over the
subdirectory list. Per entry: list it; on error skip (`except: continue`);
else if the target filename is among its plain files, select its path and
break. -/
def fileScan (root : String) : List SubEntry → Option String
  | [] => none
  | d :: rest =>
    match d.listing with
    | .error _ => fileScan root rest
    | .ok entries =>
      let filenames := (entries.filter fun p => p.2).map fun p => p.1
      if filenames.contains target_filename then some (root ++ "/" ++ d.name)
      else fileScan root rest

/-- Whether one entry would be selected by `fileScan`: its listing
succeeds and its plain files include `target_filename`. -/
def entryFileMatch (d : SubEntry) : Bool :=
  match d.listing with
  | .error _ => false
  | .ok entries => ((entries.filter fun p => p.2).map fun p => p.1).contains target_filename

/-- The `pathlib` path objects of the filtered subdirectory list, as the
Python `drives` variable holds them (lines 84 and 114). -/
def drivePaths (root : String) (drives : List SubEntry) : List PyVal :=
  drives.map fun d => .ppath (root ++ "/" ++ d.name)

/-- Lines 81-99: Linux resolution over the entries of `/media/<user>`.
`drives` keeps the directory entries; line 85 tests
`target_drive in drives`, a `str`-in-list-of-`Path` membership; on a hit
lines 86-87 select `mpath / target_drive`, otherwise lines 89-99 run the
file-search loop. -/
def linuxResolve (user : String) (entries : List SubEntry) : ScanResult :=
  let mpath := "/media/" ++ user
  let drives := entries.filter fun x => x.isDir
  if pyIn (.pstr target_drive) (drivePaths mpath drives) then
    ⟨.ppath (mpath ++ "/" ++ target_drive), true, false⟩
  else
    match fileScan mpath drives with
    | some p => ⟨.ppath p, false, true⟩
    | none => initScan

/-- Lines 113-128: macOS resolution over the entries of `/Volumes`.
Line 115 tests `target_drive in drives and not target_file_found` (with
`target_file_found` still at its initial `False`); a hit sets the
provisional label selection (lines 116-117). Lines 118-128 then run the
file-search loop, whose hit overwrites `upload_disk` and breaks. -/
def darwinResolve (entries : List SubEntry) : ScanResult :=
  let drives := entries.filter fun x => x.isDir
  let afterLabel : ScanResult :=
    if pyIn (.pstr target_drive) (drivePaths "/Volumes" drives)
        && !initScan.target_file_found then
      ⟨.ppath ("/Volumes/" ++ target_drive), true, initScan.target_file_found⟩
    else initScan
  match fileScan "/Volumes" drives with
  | some p => ⟨.ppath p, afterLabel.target_drive_found, true⟩
  | none => afterLabel

/-- Host OS together with the filesystem state the script can observe on
it. `platform.system()` selects the branch (lines 36, 77, 109); anything
else takes no branch. For Linux/macOS the root `iterdir()` may itself
raise, reaching the top-level handler. -/
inductive HostFS where
  | windows (st : WinState)
  | linux (user : String) (root : Except String (List SubEntry))
  | darwin (root : Except String (List SubEntry))
  | other

/-- Lines 130-137: the shared tail of `before_upload`. On a find, set
`UPLOAD_PORT` to `str(upload_disk)` and print the success line; otherwise
print the `Autodetect Error` diagnostic. -/
def finishCommon (r : ScanResult) (env : EnvState) : HookResult :=
  if scanFound r then
    ⟨{ env with upload_port := some (pyStr r.upload_disk) },
     ["\nUpload disk: " ++ pyStr r.upload_disk ++ "\n"]⟩
  else
    ⟨env, [print_error_msg "Autodetect Error" env.pioenv]⟩

/-- The Linux-only `UPLOAD_FLAGS` template of lines 104-107. -/
def uploadFlagsValue : String := "-P$UPLOAD_PORT"

/-- Lines 27-140: the whole hook body. The `try` of line 28 catches a
root-enumeration failure (Linux/macOS `iterdir` on a missing or unreadable
root) and routes it to `print_error` (lines 139-140); per-candidate errors
are consumed inside the loops. On Linux a find additionally sets
`UPLOAD_FLAGS` (lines 104-107) before the shared tail runs. -/
def before_upload (fs : HostFS) (env : EnvState) : HookResult :=
  match fs with
  | .windows st => finishCommon (winScan st (winDrives st.bitmask)) env
  | .linux user root =>
    match root with
    | .error e => ⟨env, [print_error_msg e env.pioenv]⟩
    | .ok entries =>
      let r := linuxResolve user entries
      let env1 :=
        if scanFound r then { env with upload_flags := some uploadFlagsValue }
        else env
      finishCommon r env1
  | .darwin root =>
    match root with
    | .error e => ⟨env, [print_error_msg e env.pioenv]⟩
    | .ok entries => finishCommon (darwinResolve entries) env
  | .other => finishCommon initScan env

/-- A sample starting environment for concrete evaluations. -/
def envInit : EnvState := ⟨"LPC1768", none, none⟩

/-- Whether the Windows loop passes over drive `c` without selecting it:
`vol` errors out, or no label match and `dir` errors out or has no
filename match. -/
def winSkips (st : WinState) (c : Char) : Bool :=
  match st.vol c with
  | .error _ => true
  | .ok v =>
    !(strContains v target_drive) &&
      (match st.dirListing c with
       | .error _ => true
       | .ok s => !(strContains s target_filename))

/-- A concrete Windows state for witnesses: drives `C` and `D` assigned
(bitmask bits 2 and 3); `C` has an unhelpful label but its directory
listing shows the marker file; `D` has a matching volume label; `E` has
an unhelpful label and an unreadable directory. -/
def stw : WinState :=
  ⟨12,
   fun c =>
     if c = 'C' then .ok " Volume in drive C has no label."
     else if c = 'D' then .ok " Volume in drive D is REARM"
     else if c = 'E' then .ok " Volume in drive E has no label." else .error "no drive",
   fun c =>
     if c = 'C' then .ok " 10/12/2026  FIRMWARE.CUR" else .error "not ready"⟩

/-- A concrete media-root entry named after the target label, empty. -/
def entryREARM : SubEntry := ⟨"REARM", true, .ok []⟩

/-- A concrete media-root entry named `OTHER` holding the marker file. -/
def entryOTHER : SubEntry := ⟨"OTHER", true, .ok [("FIRMWARE.CUR", true)]⟩

/-- A concrete entry whose listing raises (an unreadable candidate). -/
def entryBad : SubEntry := ⟨"BAD", true, .error "Permission denied"⟩

/-- No candidate of a listed media/volumes root matches either rule: no
subdirectory is named `target_drive` and none has a readable listing
containing `target_filename`. A root that fails to list has no
candidates at all. -/
def rootNoMatch : Except String (List SubEntry) → Prop
  | .error _ => True
  | .ok entries => ∀ x ∈ entries.filter (fun d => d.isDir),
      x.name ≠ target_drive ∧ entryFileMatch x = false

/-- No enumerated candidate of the current OS matches either rule: on
Windows no assigned drive's `vol` output contains the target label and
no `dir` output contains the target filename; on Linux/macOS the listed
root has no matching subdirectory. -/
def candidatesNoMatch : HostFS → Prop
  | .windows st => ∀ c ∈ winDrives st.bitmask,
      (∀ v, st.vol c = .ok v → strContains v target_drive = false) ∧
      (∀ s, st.dirListing c = .ok s → strContains s target_filename = false)
  | .linux _ root => rootNoMatch root
  | .darwin root => rootNoMatch root
  | .other => True

/-! Helper lemmas about the embedded operations. -/

theorem string_data_append (a b : String) : (a ++ b).data = a.data ++ b.data := rfl

theorem pyIn_pstr_drivePaths (s root : String) (l : List SubEntry) :
    pyIn (.pstr s) (drivePaths root l) = false := by
  simp [drivePaths, pyIn, pyEq]

theorem fileScan_cons_skip (root : String) (d : SubEntry) (rest : List SubEntry)
    (h : entryFileMatch d = false) :
    fileScan root (d :: rest) = fileScan root rest := by
  cases hl : d.listing with
  | error e => simp [fileScan, hl]
  | ok es =>
    simp only [entryFileMatch, hl] at h
    simp at h
    simp only [fileScan, hl]
    simp [h]

theorem fileScan_cons_match (root : String) (d : SubEntry) (rest : List SubEntry)
    (h : entryFileMatch d = true) :
    fileScan root (d :: rest) = some (root ++ "/" ++ d.name) := by
  cases hl : d.listing with
  | error e => simp [entryFileMatch, hl] at h
  | ok es =>
    simp only [entryFileMatch, hl] at h
    simp at h
    simp only [fileScan, hl]
    simp [h]

theorem fileScan_append_skip (root : String) (l₁ l₂ : List SubEntry)
    (h : ∀ x ∈ l₁, entryFileMatch x = false) :
    fileScan root (l₁ ++ l₂) = fileScan root l₂ := by
  induction l₁ with
  | nil => rfl
  | cons d rest ih =>
    rw [List.cons_append, fileScan_cons_skip root d _ (h d (by simp))]
    exact ih fun x hx => h x (by simp [hx])

theorem fileScan_all_skip (root : String) (l : List SubEntry)
    (h : ∀ x ∈ l, entryFileMatch x = false) :
    fileScan root l = none := by
  have := fileScan_append_skip root l [] h
  simpa using this

theorem fileScan_eq_some (root : String) (l : List SubEntry) (p : String)
    (h : fileScan root l = some p) :
    ∃ d ∈ l, entryFileMatch d = true ∧ p = root ++ "/" ++ d.name := by
  induction l with
  | nil => simp [fileScan] at h
  | cons d rest ih =>
    by_cases hm : entryFileMatch d = true
    · rw [fileScan_cons_match root d rest hm] at h
      exact ⟨d, by simp, hm, (Option.some_injective _ h).symm⟩
    · rw [fileScan_cons_skip root d rest (by simpa using hm)] at h
      obtain ⟨e, he, hme, hp⟩ := ih h
      exact ⟨e, by simp [he], hme, hp⟩

theorem winScan_cons_skip (st : WinState) (c : Char) (rest : List Char)
    (h : winSkips st c = true) :
    winScan st (c :: rest) = winScan st rest := by
  cases hv : st.vol c with
  | error e => simp [winScan, hv]
  | ok v =>
    have h2 := h
    rw [winSkips, hv] at h2
    cases hlabel : strContains v target_drive with
    | true => simp [hlabel] at h2
    | false =>
      cases hd : st.dirListing c with
      | error e => simp [winScan, hv, hlabel, hd]
      | ok s =>
        rw [hd] at h2
        simp [hlabel] at h2
        simp [winScan, hv, hlabel, hd, h2]

theorem winScan_append_skip (st : WinState) (l₁ l₂ : List Char)
    (h : ∀ x ∈ l₁, winSkips st x = true) :
    winScan st (l₁ ++ l₂) = winScan st l₂ := by
  induction l₁ with
  | nil => rfl
  | cons c rest ih =>
    rw [List.cons_append, winScan_cons_skip st c _ (h c (by simp))]
    exact ih fun x hx => h x (by simp [hx])

theorem winScan_all_skip (st : WinState) (l : List Char)
    (h : ∀ x ∈ l, winSkips st x = true) :
    winScan st l = initScan := by
  have := winScan_append_skip st l [] h
  simpa [winScan] using this

theorem winScan_found_mem (st : WinState) (l : List Char)
    (h : scanFound (winScan st l) = true) :
    ∃ c ∈ l, (winScan st l).upload_disk = .ppath (driveName c) := by
  induction l with
  | nil => simp [winScan, initScan, scanFound] at h
  | cons c rest ih =>
    cases hv : st.vol c with
    | error e =>
      rw [winScan_cons_skip st c rest (by simp [winSkips, hv])] at h ⊢
      obtain ⟨x, hx, hd⟩ := ih h
      exact ⟨x, by simp [hx], hd⟩
    | ok v =>
      cases hlabel : strContains v target_drive with
      | true =>
        refine ⟨c, by simp, ?_⟩
        simp [winScan, hv, hlabel]
      | false =>
        cases hd : st.dirListing c with
        | error e =>
          rw [winScan_cons_skip st c rest (by simp [winSkips, hv, hlabel, hd])] at h ⊢
          obtain ⟨x, hx, hdisk⟩ := ih h
          exact ⟨x, by simp [hx], hdisk⟩
        | ok s =>
          cases hfile : strContains s target_filename with
          | true =>
            refine ⟨c, by simp, ?_⟩
            simp [winScan, hv, hlabel, hd, hfile]
          | false =>
            rw [winScan_cons_skip st c rest (by simp [winSkips, hv, hlabel, hd, hfile])] at h ⊢
            obtain ⟨x, hx, hdisk⟩ := ih h
            exact ⟨x, by simp [hx], hdisk⟩

theorem winDrivesGo_sublist (b : Nat) (l : List Char) :
    (winDrivesGo b l).Sublist l := by
  induction l generalizing b with
  | nil => simp [winDrivesGo]
  | cons c cs ih =>
    by_cases hb : b % 2 = 1
    · simpa [winDrivesGo, hb] using (ih (b / 2)).cons₂ c
    · simpa [winDrivesGo, hb] using (ih (b / 2)).cons c

theorem winDrivesGo_mem (b : Nat) (l : List Char) (c : Char)
    (h : c ∈ winDrivesGo b l) :
    ∃ i, l[i]? = some c ∧ b / 2 ^ i % 2 = 1 := by
  induction l generalizing b with
  | nil => simp [winDrivesGo] at h
  | cons a as ih =>
    by_cases hb : b % 2 = 1
    · rw [winDrivesGo, if_pos hb] at h
      rcases List.mem_cons.mp h with hc | hc
      · exact ⟨0, by simp [hc], by simpa using hb⟩
      · obtain ⟨i, hi, hbit⟩ := ih (b / 2) hc
        refine ⟨i + 1, by simpa using hi, ?_⟩
        rw [pow_succ', ← Nat.div_div_eq_div_mul]
        exact hbit
    · rw [winDrivesGo, if_neg hb] at h
      obtain ⟨i, hi, hbit⟩ := ih (b / 2) h
      refine ⟨i + 1, by simpa using hi, ?_⟩
      rw [pow_succ', ← Nat.div_div_eq_div_mul]
      exact hbit

theorem driveName_ne_sentinel (c : Char) : driveName c ≠ "Disk not found" := by
  intro h
  have := congrArg String.length h
  simp [driveName, String.length] at this

theorem string_append_left_inj (s a b : String) (h : s ++ a = s ++ b) : a = b := by
  have hd := congrArg String.data h
  rw [string_data_append, string_data_append] at hd
  exact String.ext (List.append_cancel_left hd)

/-! Claim theorems. -/

/-- C1: the claim says that on Linux a subdirectory named exactly
`target_drive` is selected immediately (REARM/OTHER scenario gives the
REARM path). The code disagrees: line 85 compares the `str`
`target_drive` against `pathlib.Path` objects, which is always `False`,
so at the scenario input the file search runs and selects `OTHER`. This
theorem records the code's actual behaviour at that failing input: the
label membership test is `false` and the resolved port is the `OTHER`
path with the upload flag set. -/
theorem C1_code_behavior :
    pyIn (.pstr target_drive)
        (drivePaths ("/media/" ++ "u") (([entryREARM, entryOTHER]).filter fun x => x.isDir))
      = false ∧
    (before_upload (.linux "u" (.ok [entryREARM, entryOTHER])) envInit).env.upload_port
      = some "/media/u/OTHER" ∧
    (before_upload (.linux "u" (.ok [entryREARM, entryOTHER])) envInit).env.upload_flags
      = some uploadFlagsValue :=
  ⟨rfl, rfl, rfl⟩

/-- C2: the claim says that on macOS a subdirectory named exactly
`target_drive`, with no file match anywhere, is selected as the
candidate. The code disagrees for the same reason as on Linux: the
line 115 membership test compares a `str` with `Path` objects and is
always `False`, so with `/Volumes` containing only an (empty) `REARM`
directory the resolution fails outright: the environment is unchanged
and the autodetect-error diagnostic is printed. -/
theorem C2_code_behavior :
    (before_upload (.darwin (.ok [entryREARM])) envInit).env = envInit ∧
    (before_upload (.darwin (.ok [entryREARM])) envInit).printed
      = [print_error_msg "Autodetect Error" "LPC1768"] :=
  ⟨rfl, rfl⟩

/-- C3: Windows drives are scanned in alphabetical drive-letter order
(the scanned list is a sublist of `A`..`Z` in order); the first drive
matching either rule wins by short-circuit across drives — a drive `c`
with a file match is selected no matter what any later drive holds —
and within a single drive the label check is performed first: a label
match selects the drive regardless of its directory listing. -/
theorem C3_windows_scan_order :
    (∀ b : Nat, (winDrives b).Sublist asciiUppercase) ∧
    (∀ (st : WinState) (l₁ l₂ : List Char) (c : Char) (v s : String),
      (∀ x ∈ l₁, winSkips st x = true) →
      st.vol c = .ok v → strContains v target_drive = false →
      st.dirListing c = .ok s → strContains s target_filename = true →
      winScan st (l₁ ++ c :: l₂) = ⟨.ppath (driveName c), false, true⟩) ∧
    (∀ (st : WinState) (l₂ : List Char) (c : Char) (v : String),
      st.vol c = .ok v → strContains v target_drive = true →
      winScan st (c :: l₂) = ⟨.ppath (driveName c), true, false⟩) := by
  refine ⟨fun b => winDrivesGo_sublist b asciiUppercase, ?_, ?_⟩
  · intro st l₁ l₂ c v s hskip hv hlv hd hds
    rw [winScan_append_skip st l₁ (c :: l₂) hskip]
    simp [winScan, hv, hlv, hd, hds]
  · intro st l₂ c v hv hlv
    simp [winScan, hv, hlv]

/-- Witness for C3 at the spec's own scenario: drive `C` (earlier, file
match) wins over drive `D` (later, label match); and a drive with a
label match is selected by the label rule alone. -/
theorem C3_windows_scan_order_witness :
    winScan stw ([] ++ 'C' :: ['D']) = ⟨.ppath (driveName 'C'), false, true⟩ ∧
    winScan stw ('D' :: []) = ⟨.ppath (driveName 'D'), true, false⟩ :=
  ⟨C3_windows_scan_order.2.1 stw [] ['D'] 'C' " Volume in drive C has no label."
      " 10/12/2026  FIRMWARE.CUR" (fun x hx => by simp at hx) rfl (by decide) rfl (by decide),
   C3_windows_scan_order.2.2 stw [] 'D' " Volume in drive D is REARM" rfl (by decide)⟩

/-- C4 counterexample: with `/Volumes` holding two directories `A` and
`B` that both contain `FIRMWARE.CUR`, the claim says the *last* one
(`B`) is selected; the code's loop breaks at the first file match, so
the selected path is `/Volumes/A`, which differs from `/Volumes/B`. -/
theorem C4_counterexample :
    (before_upload (.darwin (.ok [⟨"A", true, .ok [("FIRMWARE.CUR", true)]⟩,
        ⟨"B", true, .ok [("FIRMWARE.CUR", true)]⟩])) envInit).env.upload_port
      = some "/Volumes/A" ∧ ("/Volumes/A" : String) ≠ "/Volumes/B" :=
  ⟨rfl, by decide⟩

/-- C4 amended: for macOS resolution, when one or more subdirectories of
the volumes root contain the target filename, the selected path is that
of the *first* such subdirectory in enumeration order (the loop breaks
at the first file match), regardless of any later file matches. -/
theorem C4_darwin_first_file_match (env : EnvState) (l₁ l₂ : List SubEntry) (d : SubEntry)
    (hdirs : ∀ x ∈ l₁ ++ d :: l₂, x.isDir = true)
    (hskip : ∀ x ∈ l₁, entryFileMatch x = false)
    (hd : entryFileMatch d = true) :
    (before_upload (.darwin (.ok (l₁ ++ d :: l₂))) env).env.upload_port
      = some ("/Volumes" ++ "/" ++ d.name) := by
  have hfilter : (l₁ ++ d :: l₂).filter (fun x => x.isDir) = l₁ ++ d :: l₂ :=
    List.filter_eq_self.mpr fun a ha => by simp [hdirs a ha]
  have hscan : fileScan "/Volumes" (l₁ ++ d :: l₂) = some ("/Volumes" ++ "/" ++ d.name) := by
    rw [fileScan_append_skip _ _ _ hskip, fileScan_cons_match _ _ _ hd]
  have hdr : darwinResolve (l₁ ++ d :: l₂)
      = ⟨.ppath ("/Volumes" ++ "/" ++ d.name), false, true⟩ := by
    simp [darwinResolve, hfilter, pyIn_pstr_drivePaths, hscan, initScan]
  simp [before_upload, hdr, finishCommon, scanFound, pyStr]

/-- Witness for C4's amended theorem at the two-file-match input. -/
theorem C4_darwin_first_file_match_witness :
    (before_upload (.darwin (.ok ([] ++ (⟨"A", true, .ok [("FIRMWARE.CUR", true)]⟩ : SubEntry) ::
        [⟨"B", true, .ok [("FIRMWARE.CUR", true)]⟩]))) envInit).env.upload_port
      = some ("/Volumes" ++ "/" ++ "A") :=
  C4_darwin_first_file_match envInit [] [⟨"B", true, .ok [("FIRMWARE.CUR", true)]⟩]
    ⟨"A", true, .ok [("FIRMWARE.CUR", true)]⟩ (by decide) (by simp) (by decide)

/-- C5: for macOS resolution, when a subdirectory named exactly
`target_drive` occurs in the scan and a subdirectory containing the
target filename occurs later in the same scan (no earlier candidate
having a file match), the final result is the file-matching
subdirectory's path, and (when the names differ) not the label-matching
one. -/
theorem C5_darwin_file_beats_label
    (env : EnvState) (l₁ l₂ l₃ : List SubEntry) (lbl d : SubEntry)
    (hdirs : ∀ x ∈ l₁ ++ lbl :: l₂ ++ d :: l₃, x.isDir = true)
    (hlbl : lbl.name = target_drive)
    (hskip : ∀ x ∈ l₁ ++ lbl :: l₂, entryFileMatch x = false)
    (hd : entryFileMatch d = true)
    (hne : d.name ≠ lbl.name) :
    (before_upload (.darwin (.ok (l₁ ++ lbl :: l₂ ++ d :: l₃))) env).env.upload_port
      = some ("/Volumes" ++ "/" ++ d.name) ∧
    ("/Volumes" ++ "/" ++ d.name : String) ≠ "/Volumes" ++ "/" ++ lbl.name := by
  constructor
  · have hfilter : (l₁ ++ lbl :: l₂ ++ d :: l₃).filter (fun x => x.isDir)
        = l₁ ++ lbl :: l₂ ++ d :: l₃ :=
      List.filter_eq_self.mpr fun a ha => by simp [hdirs a ha]
    have hassoc : l₁ ++ lbl :: l₂ ++ d :: l₃ = (l₁ ++ lbl :: l₂) ++ d :: l₃ := by simp
    have hscan : fileScan "/Volumes" (l₁ ++ lbl :: l₂ ++ d :: l₃)
        = some ("/Volumes" ++ "/" ++ d.name) := by
      rw [hassoc, fileScan_append_skip _ _ _ hskip, fileScan_cons_match _ _ _ hd]
    have hdr : darwinResolve (l₁ ++ lbl :: l₂ ++ d :: l₃)
        = ⟨.ppath ("/Volumes" ++ "/" ++ d.name), false, true⟩ := by
      simp only [darwinResolve]
      rw [hfilter, pyIn_pstr_drivePaths, hscan]
      simp [initScan]
    simp only [List.cons_append, List.append_assoc] at hdr
    simp [before_upload, hdr, finishCommon, scanFound, pyStr]
  · intro hcontra
    exact hne (string_append_left_inj ("/Volumes" ++ "/") d.name lbl.name hcontra)

/-- Witness for C5: `/Volumes` holds `REARM` (label name, no marker
file) followed by `OTHER` (contains the marker file); the result is the
`OTHER` path. -/
theorem C5_darwin_file_beats_label_witness :
    (before_upload (.darwin (.ok ([] ++ entryREARM :: [] ++ entryOTHER :: [])))
        envInit).env.upload_port = some ("/Volumes" ++ "/" ++ entryOTHER.name) ∧
    ("/Volumes" ++ "/" ++ entryOTHER.name : String)
      ≠ "/Volumes" ++ "/" ++ entryREARM.name :=
  C5_darwin_file_beats_label envInit [] [] [] entryREARM entryOTHER
    (by decide) rfl (by decide) (by decide) (by decide)

/-- C6: on every OS, if no enumerated candidate matches by label or by
contained filename, the hook leaves the environment untouched and the
only output is a failure diagnostic. -/
theorem C6_no_match_no_mutation (fs : HostFS) (env : EnvState)
    (h : candidatesNoMatch fs) :
    (before_upload fs env).env = env ∧
    ∃ msg, (before_upload fs env).printed = [print_error_msg msg env.pioenv] := by
  cases fs with
  | windows st =>
    have hskip : ∀ c ∈ winDrives st.bitmask, winSkips st c = true := by
      intro c hc
      obtain ⟨h1, h2⟩ := h c hc
      cases hv : st.vol c with
      | error e => simp [winSkips, hv]
      | ok v =>
        cases hdd : st.dirListing c with
        | error e => simp [winSkips, hv, hdd, h1 v hv]
        | ok s => simp [winSkips, hv, hdd, h1 v hv, h2 s hdd]
    have hsc := winScan_all_skip st (winDrives st.bitmask) hskip
    refine ⟨by simp [before_upload, hsc, finishCommon, scanFound, initScan],
      ⟨"Autodetect Error", by simp [before_upload, hsc, finishCommon, scanFound, initScan]⟩⟩
  | linux user root =>
    cases root with
    | error e => exact ⟨rfl, ⟨e, rfl⟩⟩
    | ok entries =>
      have hfscan : fileScan ("/media/" ++ user) (entries.filter fun x => x.isDir) = none :=
        fileScan_all_skip _ _ fun x hx => (h x hx).2
      have hlr : linuxResolve user entries = initScan := by
        simp [linuxResolve, pyIn_pstr_drivePaths, hfscan]
      refine ⟨by simp [before_upload, hlr, finishCommon, scanFound, initScan],
        ⟨"Autodetect Error", by simp [before_upload, hlr, finishCommon, scanFound, initScan]⟩⟩
  | darwin root =>
    cases root with
    | error e => exact ⟨rfl, ⟨e, rfl⟩⟩
    | ok entries =>
      have hfscan : fileScan "/Volumes" (entries.filter fun x => x.isDir) = none :=
        fileScan_all_skip _ _ fun x hx => (h x hx).2
      have hdr : darwinResolve entries = initScan := by
        simp [darwinResolve, pyIn_pstr_drivePaths, hfscan, initScan]
      refine ⟨by simp [before_upload, hdr, finishCommon, scanFound, initScan],
        ⟨"Autodetect Error", by simp [before_upload, hdr, finishCommon, scanFound, initScan]⟩⟩
  | other =>
    exact ⟨by simp [before_upload, finishCommon, scanFound, initScan],
      ⟨"Autodetect Error", by simp [before_upload, finishCommon, scanFound, initScan]⟩⟩

/-- Witness for C6: a Linux media root with a single unreadable
subdirectory matches nothing; the environment is unchanged and a
diagnostic is printed. -/
theorem C6_no_match_no_mutation_witness :
    (before_upload (.linux "u" (.ok [entryBad])) envInit).env = envInit ∧
    ∃ msg, (before_upload (.linux "u" (.ok [entryBad])) envInit).printed
      = [print_error_msg msg envInit.pioenv] :=
  C6_no_match_no_mutation (.linux "u" (.ok [entryBad])) envInit
    (by simp only [candidatesNoMatch, rootNoMatch]; decide)

/-- C7: for Linux resolution, the `UPLOAD_FLAGS` value is set (starting
from an environment where it is unset) exactly when the resolution pass
found a match of either kind; on failure it remains unset. -/
theorem C7_linux_flags_iff_found (user : String) (root : Except String (List SubEntry))
    (env : EnvState) (h : env.upload_flags = none) :
    ((before_upload (.linux user root) env).env.upload_flags = some uploadFlagsValue
      ↔ ∃ entries, root = .ok entries ∧ scanFound (linuxResolve user entries) = true) := by
  cases root with
  | error e => simp [before_upload, h]
  | ok entries =>
    by_cases hf : scanFound (linuxResolve user entries) = true
    · have hres : (before_upload (.linux user (.ok entries)) env).env.upload_flags
          = some uploadFlagsValue := by
        simp [before_upload, hf, finishCommon]
      rw [hres]
      simp only [true_iff, iff_true]
      exact ⟨entries, rfl, hf⟩
    · have hff : scanFound (linuxResolve user entries) = false := by
        simpa using hf
      have hres : (before_upload (.linux user (.ok entries)) env).env.upload_flags = none := by
        simp [before_upload, hff, finishCommon, h]
      rw [hres]
      constructor
      · intro hc; cases hc
      · rintro ⟨e2, he2, hf2⟩
        injection he2 with he3
        subst he3
        simp [hff] at hf2

/-- Witness for C7 at a Linux root whose single subdirectory holds the
marker file. -/
theorem C7_linux_flags_iff_found_witness :
    ((before_upload (.linux "u" (.ok [entryOTHER])) envInit).env.upload_flags
        = some uploadFlagsValue
      ↔ ∃ entries, (Except.ok [entryOTHER] : Except String (List SubEntry)) = .ok entries ∧
          scanFound (linuxResolve "u" entries) = true) :=
  C7_linux_flags_iff_found "u" (.ok [entryOTHER]) envInit rfl

theorem string_append_assoc (a b c : String) : (a ++ b) ++ c = a ++ (b ++ c) :=
  String.ext (by simp [string_data_append, List.append_assoc])

theorem strContains_infix_mid (a e b : String) :
    strContains (a ++ (e ++ b)) e = true := by
  simp [strContains]

theorem strContains_print_error (e p : String) :
    strContains (print_error_msg e p) e = true := by
  have hform : print_error_msg e p
      = "\nUnable to find destination disk ("
        ++ (e ++ (")\n" ++ "Please select it in platformio.ini using the upload_port keyword "
          ++ "(https://docs.platformio.org/en/latest/projectconf/section_env_upload.html) "
          ++ "or copy the firmware (.pio/build/" ++ p
          ++ "/firmware.bin) manually to the appropriate disk\n")) := by
    simp [print_error_msg, string_append_assoc]
  rw [hform]
  exact strContains_infix_mid _ e _

theorem media_path_ne_sentinel (u n : String) :
    (("/media/" ++ u) ++ "/" ++ n) ≠ "Disk not found" := by
  intro h
  have hd := congrArg String.data h
  simp [string_data_append, String.data] at hd

theorem volumes_path_ne_sentinel (n : String) :
    ("/Volumes" ++ "/" ++ n) ≠ "Disk not found" := by
  intro h
  have hd := congrArg String.data h
  simp [string_data_append, String.data] at hd

/-- C8: a per-candidate enumeration/query error excludes only that
candidate: a Windows drive whose `vol` call raises, or whose `dir` call
raises after a non-matching label, is passed over and the scan of the
remaining drives is unchanged; a Linux/macOS subdirectory whose listing
raises is likewise passed over by the file-search loop. In each case the
overall outcome equals the outcome on the remaining candidates, so the
error alone never fails the resolution. -/
theorem C8_error_candidate_skipped :
    (∀ (st : WinState) (c : Char) (rest : List Char) (e : String),
      st.vol c = .error e → winScan st (c :: rest) = winScan st rest) ∧
    (∀ (st : WinState) (c : Char) (rest : List Char) (v e : String),
      st.vol c = .ok v → strContains v target_drive = false →
      st.dirListing c = .error e → winScan st (c :: rest) = winScan st rest) ∧
    (∀ (root : String) (d : SubEntry) (rest : List SubEntry) (e : String),
      d.listing = .error e → fileScan root (d :: rest) = fileScan root rest) := by
  refine ⟨?_, ?_, ?_⟩
  · intro st c rest e hv
    exact winScan_cons_skip st c rest (by simp [winSkips, hv])
  · intro st c rest v e hv hlv hd
    exact winScan_cons_skip st c rest (by simp [winSkips, hv, hlv, hd])
  · intro root d rest e hl
    simp [fileScan, hl]

/-- Witness for C8: an unassigned drive (`vol` raises), a drive whose
`dir` raises after a label miss, and an unreadable subdirectory are each
skipped without changing the rest of the scan. -/
theorem C8_error_candidate_skipped_witness :
    winScan stw ('Q' :: ['D']) = winScan stw ['D'] ∧
    winScan stw ('E' :: ['D']) = winScan stw ['D'] ∧
    fileScan "/media/u" (entryBad :: [entryOTHER]) = fileScan "/media/u" [entryOTHER] :=
  ⟨C8_error_candidate_skipped.1 stw 'Q' ['D'] "no drive" rfl,
   C8_error_candidate_skipped.2.1 stw 'E' ['D'] " Volume in drive E has no label."
     "not ready" rfl (by decide) rfl,
   C8_error_candidate_skipped.2.2 "/media/u" entryBad [entryOTHER] "Permission denied" rfl⟩

/-- C9: an error not handled per-candidate — the media/volumes root
itself failing to enumerate — is caught at the hook's top level and
turned into a single printed diagnostic that carries the cause text as a
substring; the environment is untouched and the hook returns normally
(the embedding is a total function into `HookResult`). -/
theorem C9_top_level_diagnostic (user e : String) (env : EnvState) :
    (before_upload (.linux user (.error e)) env).env = env ∧
    (before_upload (.linux user (.error e)) env).printed = [print_error_msg e env.pioenv] ∧
    (before_upload (.darwin (.error e)) env).env = env ∧
    (before_upload (.darwin (.error e)) env).printed = [print_error_msg e env.pioenv] ∧
    strContains (print_error_msg e env.pioenv) e = true :=
  ⟨rfl, rfl, rfl, rfl, strContains_print_error e env.pioenv⟩

/-- C10: whenever the hook writes the upload-target field (starting from
an environment with no upload port set), the written path names one of
the enumerated candidates of the current OS — a drive letter whose bit
is set in the logical-drives bitmask on Windows, a directory entry of
the user's media root on Linux, a directory entry of the volumes root on
macOS — and is never the initial `Disk not found` sentinel; the
unrecognized-OS branch never writes at all. -/
theorem C10_port_is_enumerated_candidate (fs : HostFS) (env : EnvState) (p : String)
    (h0 : env.upload_port = none)
    (h : (before_upload fs env).env.upload_port = some p) :
    p ≠ "Disk not found" ∧
    (match fs with
     | .windows st => ∃ c i, asciiUppercase[i]? = some c ∧ st.bitmask / 2 ^ i % 2 = 1 ∧
         p = driveName c
     | .linux user root => ∃ entries d, root = .ok entries ∧ d ∈ entries ∧ d.isDir = true ∧
         p = ("/media/" ++ user) ++ "/" ++ d.name
     | .darwin root => ∃ entries d, root = .ok entries ∧ d ∈ entries ∧ d.isDir = true ∧
         p = "/Volumes" ++ "/" ++ d.name
     | .other => False) := by
  cases fs with
  | windows st =>
    by_cases hf : scanFound (winScan st (winDrives st.bitmask)) = true
    · obtain ⟨c, hc, hdisk⟩ := winScan_found_mem st (winDrives st.bitmask) hf
      have hp : p = driveName c := by
        simp [before_upload, finishCommon, hf, hdisk, pyStr] at h
        exact h.symm
      obtain ⟨i, hi, hbit⟩ := winDrivesGo_mem st.bitmask asciiUppercase c hc
      exact ⟨by rw [hp]; exact driveName_ne_sentinel c, c, i, hi, hbit, hp⟩
    · have hff : scanFound (winScan st (winDrives st.bitmask)) = false := by simpa using hf
      simp [before_upload, finishCommon, hff, h0] at h
  | linux user root =>
    cases root with
    | error e => simp [before_upload, h0] at h
    | ok entries =>
      cases hscan : fileScan ("/media/" ++ user) (entries.filter fun x => x.isDir) with
      | none =>
        have hlr : linuxResolve user entries = initScan := by
          simp [linuxResolve, pyIn_pstr_drivePaths, hscan]
        simp [before_upload, hlr, finishCommon, scanFound, initScan, h0] at h
      | some q =>
        have hlr : linuxResolve user entries = ⟨.ppath q, false, true⟩ := by
          simp [linuxResolve, pyIn_pstr_drivePaths, hscan]
        obtain ⟨d, hd, hm, hq⟩ := fileScan_eq_some _ _ _ hscan
        have hp : p = q := by
          simp [before_upload, hlr, finishCommon, scanFound, pyStr] at h
          exact h.symm
        obtain ⟨hdmem, hddir⟩ := List.mem_filter.mp hd
        refine ⟨?_, entries, d, rfl, hdmem, by simpa using hddir, ?_⟩
        · rw [hp, hq]; exact media_path_ne_sentinel user d.name
        · rw [hp, hq]
  | darwin root =>
    cases root with
    | error e => simp [before_upload, h0] at h
    | ok entries =>
      cases hscan : fileScan "/Volumes" (entries.filter fun x => x.isDir) with
      | none =>
        have hdr : darwinResolve entries = initScan := by
          simp [darwinResolve, pyIn_pstr_drivePaths, hscan, initScan]
        simp [before_upload, hdr, finishCommon, scanFound, initScan, h0] at h
      | some q =>
        have hdr : darwinResolve entries = ⟨.ppath q, false, true⟩ := by
          simp [darwinResolve, pyIn_pstr_drivePaths, hscan, initScan]
        obtain ⟨d, hd, hm, hq⟩ := fileScan_eq_some _ _ _ hscan
        have hp : p = q := by
          simp [before_upload, hdr, finishCommon, scanFound, pyStr] at h
          exact h.symm
        obtain ⟨hdmem, hddir⟩ := List.mem_filter.mp hd
        refine ⟨?_, entries, d, rfl, hdmem, by simpa using hddir, ?_⟩
        · rw [hp, hq]; exact volumes_path_ne_sentinel d.name
        · rw [hp, hq]
  | other => simp [before_upload, finishCommon, scanFound, initScan, h0] at h

/-- Witness for C10 at a Linux root whose `OTHER` entry holds the marker
file: the written port is the `OTHER` entry's path, not the sentinel. -/
theorem C10_port_is_enumerated_candidate_witness :
    ("/media/u/OTHER" : String) ≠ "Disk not found" ∧
    ∃ entries d,
      (Except.ok [entryREARM, entryOTHER] : Except String (List SubEntry)) = .ok entries ∧
      d ∈ entries ∧ d.isDir = true ∧
      ("/media/u/OTHER" : String) = ("/media/" ++ "u") ++ "/" ++ d.name :=
  C10_port_is_enumerated_candidate (.linux "u" (.ok [entryREARM, entryOTHER])) envInit
    "/media/u/OTHER" rfl rfl
